import Mathlib

/-! MAMBO `dbm.h`: cache layout constants, size rounding, entry adjustment

A shallow embedding of the tunable parameters, macros and the inline function
`adjust_cc_entry` of `dbm.h`, together with the properties of them that the
design document states.

Conditional compilation (`#ifdef`) is modelled by boolean parameters: a
definition whose value depends on `DBM_TRACES`, `PLUGINS_NEW`, `CC_HUGETLB`,
`METADATA_HUGETLB` or the target architecture takes the corresponding flag as
an argument.  C `int` constants are `Int`; sizes and addresses are `Nat`, with
explicit reduction modulo `2 ^ w` wherever an unsigned `w`-bit operation can
wrap.
-/

namespace Mambo

/-! ## Tunable parameters (dbm.h, lines 36-82) -/

/-- Source line `#define TOTAL_CC_SIZE (16*1024*1024)` -/
def TOTAL_CC_SIZE : Int := 16 * 1024 * 1024

/-- Constant `BB_META_SIZE`: 55000 under `DBM_TRACES`, 65000 otherwise. -/
def BB_META_SIZE (dbm_traces : Bool) : Int := if dbm_traces then 55000 else 65000

/-- Constant `TRACE_CACHE_SIZE` as first defined (lines 38-46): `(2*1024*1024)` under
`DBM_TRACES`, `0` otherwise. -/
def TRACE_CACHE_SIZE_tuned (dbm_traces : Bool) : Int :=
  if dbm_traces then 2 * 1024 * 1024 else 0

/-- Constant `TRACE_META_SIZE`: 60000 under `DBM_TRACES`, 0 otherwise. -/
def TRACE_META_SIZE (dbm_traces : Bool) : Int := if dbm_traces then 60000 else 0

/-- The condition of the build-time guard
`#if (TRACE_CACHE_SIZE >= TOTAL_CC_SIZE)` (line 56). -/
def trace_cache_guard (dbm_traces : Bool) : Bool :=
  decide (TRACE_CACHE_SIZE_tuned dbm_traces ≥ TOTAL_CC_SIZE)

/-- Constant `TRACE_CACHE_SIZE` as seen after line 61: when the guard fires the macro is
redefined to `TOTAL_CC_SIZE`, otherwise the tuned value stands. -/
def TRACE_CACHE_SIZE (dbm_traces : Bool) : Int :=
  if trace_cache_guard dbm_traces then TOTAL_CC_SIZE else TRACE_CACHE_SIZE_tuned dbm_traces

/-- Source line `#define BB_CACHE_SIZE (TOTAL_CC_SIZE - TRACE_CACHE_SIZE)`; the macro is
expanded at its uses, so it sees the final `TRACE_CACHE_SIZE`. -/
def BB_CACHE_SIZE (dbm_traces : Bool) : Int := TOTAL_CC_SIZE - TRACE_CACHE_SIZE dbm_traces

/-- Source line `#define MIN_FSPACE_UNIT 1024` -/
def MIN_FSPACE_UNIT : Int := 1024

/-- Source line `#define MAX_PLUGIN_NO (10)` -/
def MAX_PLUGIN_NO : Int := 10

/-- The one field of `dbm_global` that `MIN_FSPACE` reads: `int free_plugin`
(present under `PLUGINS_NEW`), the number of registered plugins. -/
structure dbm_global where
  free_plugin : Int
deriving Repr, DecidableEq

/-- Constant `MIN_FSPACE`: `(MIN_FSPACE_UNIT * (1 + global_data.free_plugin))` under
`PLUGINS_NEW`, `(MIN_FSPACE_UNIT)` otherwise. -/
def MIN_FSPACE (plugins_new : Bool) (global_data : dbm_global) : Int :=
  if plugins_new then MIN_FSPACE_UNIT * (1 + global_data.free_plugin) else MIN_FSPACE_UNIT

/-- Source line `#define MAX_TRACE_FRAGMENTS 20` -/
def MAX_TRACE_FRAGMENTS : Nat := 20

/-- Source line `#define MAX_TRACE_REC_EXITS (MAX_TRACE_FRAGMENTS+1)` -/
def MAX_TRACE_REC_EXITS : Nat := MAX_TRACE_FRAGMENTS + 1

/-! ## Page sizes and rounding (dbm.h, lines 365-385) -/

/-- Constant `CC_PAGE_SIZE`: `(2*1024*1024)` under `CC_HUGETLB`, `4096` otherwise. -/
def CC_PAGE_SIZE (cc_hugetlb : Bool) : Nat := if cc_hugetlb then 2 * 1024 * 1024 else 4096

/-- Constant `METADATA_PAGE_SIZE`: `(2*1024*1024)` under `METADATA_HUGETLB`, `4096`
otherwise. -/
def METADATA_PAGE_SIZE (metadata_hugetlb : Bool) : Nat :=
  if metadata_hugetlb then 2 * 1024 * 1024 else 4096

/-- The macro `ROUND_UP(input, multiple_of)` on mathematical naturals:
`((input / multiple_of) * multiple_of) + ((input % multiple_of) ? multiple_of : 0)`. -/
def ROUND_UP (input multiple_of : Nat) : Nat :=
  ((input / multiple_of) * multiple_of) + (if input % multiple_of ≠ 0 then multiple_of else 0)

/-- The macro `ROUND_UP` evaluated in an unsigned type of `bits` bits: the
product and the sum each wrap modulo `2 ^ bits`. -/
def ROUND_UP_w (bits input multiple_of : Nat) : Nat :=
  ((((input / multiple_of) * multiple_of) % 2 ^ bits)
    + (if input % multiple_of ≠ 0 then multiple_of else 0)) % 2 ^ bits

/-- Source line `#define CC_SZ_ROUND(input) ROUND_UP(input, CC_PAGE_SIZE)` -/
def CC_SZ_ROUND (cc_hugetlb : Bool) (input : Nat) : Nat :=
  ROUND_UP input (CC_PAGE_SIZE cc_hugetlb)

/-- Source line `#define METADATA_SZ_ROUND(input) ROUND_UP(input, CC_PAGE_SIZE)`: the
source rounds to `CC_PAGE_SIZE`, so the value depends on `CC_HUGETLB` only. -/
def METADATA_SZ_ROUND (cc_hugetlb : Bool) (input : Nat) : Nat :=
  ROUND_UP input (CC_PAGE_SIZE cc_hugetlb)

/-! ## Link status, trace records, scanner queue flags -/

/-- Source line `#define FALLTHROUGH_LINKED (1 << 0)` -/
def FALLTHROUGH_LINKED : Nat := 1 <<< 0

/-- Source line `#define BRANCH_LINKED (1 << 1)` -/
def BRANCH_LINKED : Nat := 1 <<< 1

/-- Source line `#define BOTH_LINKED (1 << 2)` -/
def BOTH_LINKED : Nat := 1 <<< 2

/-- Record `struct trace_exits`: the two addresses of one recorded trace exit (the C
fields `from` and `to`). -/
structure trace_exits where
  from_addr : Nat
  to_addr : Nat
deriving Repr, DecidableEq

/-- Record `trace_in_prog`: the trace being built.  `exits` is the C array
`struct trace_exits exits[MAX_TRACE_REC_EXITS]`, so it is indexed by
`Fin MAX_TRACE_REC_EXITS`; `free_exit_rec` is the C `int` index of the first
unused exit record. -/
structure trace_in_prog where
  id : Int
  source_bb : Int
  write_p : Nat
  entry_addr : Nat
  active : Bool
  free_exit_rec : Int
  exits : Fin MAX_TRACE_REC_EXITS → trace_exits

/-- Modelled from the spec: the code that records a trace exit is outside
`dbm.h`; the design document says each fragment of a trace in progress
"records an exit entry" into the "ordered, capacity-bounded sequence of exit
records (from-address, to-address)".  The record is written at index
`free_exit_rec`, which is then advanced by one; `none` stands for a write
outside the bounds of `exits`. -/
def record_trace_exit (t : trace_in_prog) (e : trace_exits) : Option trace_in_prog :=
  if h : 0 ≤ t.free_exit_rec ∧ t.free_exit_rec.toNat < MAX_TRACE_REC_EXITS then
    some { t with
      exits := Function.update t.exits ⟨t.free_exit_rec.toNat, h.2⟩ e
      free_exit_rec := t.free_exit_rec + 1 }
  else
    none

/-- Modelled from the spec: a trace of `N` fragments "records exactly one exit
per fragment": the exits of the fragments are recorded in order, starting from
the current `free_exit_rec`. -/
def record_trace_exits (t : trace_in_prog) : List trace_exits → Option trace_in_prog
  | [] => some t
  | e :: es =>
    match record_trace_exit t e with
    | some t1 => record_trace_exits t1 es
    | none => none

/-- A trace in progress with no exit recorded yet, used to evaluate
`record_trace_exits` on a concrete input. -/
def trace_start : trace_in_prog :=
  { id := 0, source_bb := 0, write_p := 0, entry_addr := 0, active := true,
    free_exit_rec := 0, exits := fun _ => ⟨0, 0⟩ }

/-- Source line `#define MAX_SCAN_QUEUE_LEN (10)` -/
def MAX_SCAN_QUEUE_LEN : Nat := 10

/-- Source line `#define QUEUE_COND_MASK (0xF)` -/
def QUEUE_COND_MASK : Nat := 0xF

/-- Source line `#define QUEUE_STUB_ONLY (1 << 4)` -/
def QUEUE_STUB_ONLY : Nat := 1 <<< 4

/-- Source line `#define QUEUE_IS_RAW_ADDR (1 << 5)` -/
def QUEUE_IS_RAW_ADDR : Nat := 1 <<< 5

/-- Source line `#define QUEUE_IS_THUMB (1 << 6)` -/
def QUEUE_IS_THUMB : Nat := 1 <<< 6

/-! ## Entry adjustment (dbm.h, lines 335-342) -/

/-- Constant `UINT_MAX` of `limits.h` on both targets (`unsigned int` is 32 bits). -/
def UINT_MAX : Nat := 4294967295

/-- Function `adjust_cc_entry`.  `arm = true` is the `__arm__` build, where `uintptr_t`
is an unsigned 32-bit integer: `4 - ((addr & 1) << 1)` and `addr += ...` are
computed modulo `2 ^ 32`.  In the AArch64 build (`arm = false`) the body is
just `return addr;`. -/
def adjust_cc_entry (arm : Bool) (addr : Nat) : Nat :=
  if arm then
    if addr ≠ UINT_MAX then
      (addr + (4 + 2 ^ 32 - (((addr &&& 1) <<< 1) % 2 ^ 32)) % 2 ^ 32) % 2 ^ 32
    else
      addr
  else
    addr

/-! ## Thread context, address index and lookup-or-scan

The header declares the data (`dbm_code_cache_meta`, `dbm_thread`,
`scanner_queue_entry`, `scanner_queue_t`) and the prototypes `cc_lookup`,
`lookup_or_scan`, `lookup_or_stub`, `scan`, `allocate_bb`,
`scanner_queue_add`, `scanner_queue_process` and `flush_code_cache`; their
bodies are in other files.  The operations below follow the design
document. -/

/-- Source line `#define ALLOCATE_BB 0`: the value of `stub_id` that asks
`scan` for a new block. -/
def ALLOCATE_BB : Nat := 0

/-- The failures of the translation path in the error taxonomy of the design
document: `CacheExhausted` is recoverable, the other two are fatal. -/
inductive dbm_error where
  | CacheExhausted
  | ScanQueueOverflow
  | UnsupportedInstruction
deriving Repr, DecidableEq

/-- The fields of `dbm_code_cache_meta` that tie a cache block to its source:
`source_addr` and the translated address `tpc`. -/
structure dbm_code_cache_meta where
  source_addr : Nat
  tpc : Nat
deriving Repr, DecidableEq

/-- The fields of `dbm_thread` used by the block cache: the free-block cursor
`free_block`, the flag `was_flushed`, the metadata table `code_cache_meta`
(indexed by block id), the address index `entry_address` (the `hash_table` of
`util.h`, kept as an association list from source address to translated
address) and the write cursor `bb_cache_next`. -/
structure dbm_thread where
  free_block : Nat
  was_flushed : Bool
  code_cache_meta : Nat → dbm_code_cache_meta
  entry_address : List (Nat × Nat)
  bb_cache_next : Nat

/-- Record `scanner_queue_entry`: a deferred branch target, with its source
address `spc`, the patch site `link_to` and the flag word `info`. -/
structure scanner_queue_entry where
  spc : Nat
  link_to : Nat
  info : Nat
deriving Repr, DecidableEq

/-- Record `scanner_queue_t`: the work queue of one scan.  The C fields `len`
and `entries[MAX_SCAN_QUEUE_LEN]` are kept as the list of the `len` entries in
use. -/
structure scanner_queue_t where
  entries : List scanner_queue_entry
deriving Repr, DecidableEq

/-- What a scan depends on besides the thread: the build configuration, the
plugin registry, the address of the block region `code_cache->bbs`, the size
of a stub block, and the ISA-specific scanner (`scan_arm`, `scan_thumb`,
`scan_a64`) driving the external codec over the block that starts at a source
address: `none` when the codec cannot classify an instruction, otherwise the
number of bytes emitted and the branch targets discovered, in order. -/
structure scan_env where
  dbm_traces : Bool
  plugins_new : Bool
  global_data : dbm_global
  bbs : Nat
  stub_size : Nat
  scan_isa : Nat → Option (Nat × List scanner_queue_entry)

/-- Source addresses of the allocated metadata slots, by block id
`0 .. free_block - 1`. -/
def slot_sources (t : dbm_thread) : List Nat :=
  (List.range t.free_block).map (fun i => (t.code_cache_meta i).source_addr)

/-- Number of allocated metadata slots whose source address is `p`. -/
def slots_with_source (t : dbm_thread) (p : Nat) : Nat :=
  (slot_sources t).count p

/-- Keys of the address index. -/
def index_keys (t : dbm_thread) : List Nat :=
  t.entry_address.map Prod.fst

/-- Consistency of index and metadata table: the indexed source addresses are
exactly those of the allocated slots, and no two allocated slots have the same
source address. -/
def cc_consistent (t : dbm_thread) : Prop :=
  (∀ s ∈ index_keys t, s ∈ slot_sources t)
    ∧ (∀ s ∈ slot_sources t, s ∈ index_keys t)
    ∧ (slot_sources t).Nodup

instance (t : dbm_thread) : Decidable (cc_consistent t) := by
  unfold cc_consistent
  infer_instance

/-- Modelled from the spec: the body of `cc_lookup` is not in `dbm.h`.
"`lookup(ctx, source_address) -> translated_address | miss`": a probe of the
address index; `none` is the miss. -/
def cc_lookup (t : dbm_thread) (target : Nat) : Option Nat :=
  t.entry_address.lookup target

/-- Modelled from the spec: the body of `flush_code_cache` is not in `dbm.h`.
"`flush(ctx)`: resets both cursors and block counts to zero, clears both
Address Indexes"; the flush is noted in `was_flushed`. -/
def flush_code_cache (env : scan_env) (t : dbm_thread) : dbm_thread :=
  { t with free_block := 0, was_flushed := true, entry_address := [], bb_cache_next := env.bbs }

/-- Modelled from the spec: the body of `allocate_bb` is not in `dbm.h`.
"`allocate_block(ctx)`: returns the next free metadata slot id [...]; fails
with `CacheExhausted` when the metadata table or the byte region has
insufficient capacity (checked against a minimum-free-space threshold before
each new block, scaled up when plugin instrumentation is active)".  The write
cursor is advanced when the block is written, once its size is known. -/
def allocate_bb (env : scan_env) (t : dbm_thread) : Except dbm_error (Nat × dbm_thread) :=
  if (t.free_block : Int) < BB_META_SIZE env.dbm_traces
      ∧ MIN_FSPACE env.plugins_new env.global_data
          ≤ (env.bbs : Int) + BB_CACHE_SIZE env.dbm_traces - (t.bb_cache_next : Int) then
    .ok (t.free_block, { t with free_block := t.free_block + 1 })
  else
    .error dbm_error.CacheExhausted

/-- Modelled from the spec: a block of `size` bytes for source address
`address` is written at the write cursor: "new block written to Code Cache
Allocator's cursor, its slot filled in Metadata Table, address inserted into
Address Index". -/
def install_block (t : dbm_thread) (basic_block address size : Nat) : dbm_thread :=
  { t with
    code_cache_meta := Function.update t.code_cache_meta basic_block ⟨address, t.bb_cache_next⟩
    entry_address := (address, t.bb_cache_next) :: t.entry_address
    bb_cache_next := t.bb_cache_next + size }

/-- Modelled from the spec: the body of `scanner_queue_add` is not in `dbm.h`.
"Bounded queue, fixed small capacity": the entry is appended unless the queue
already holds `MAX_SCAN_QUEUE_LEN` entries; `none` is the overflow. -/
def scanner_queue_add (queue : scanner_queue_t) (entry : scanner_queue_entry) :
    Option scanner_queue_t :=
  if queue.entries.length < MAX_SCAN_QUEUE_LEN then
    some { entries := queue.entries ++ [entry] }
  else
    none

/-- The branch targets discovered by one scan are added to its queue in
order; `none` as soon as one of them does not fit. -/
def scanner_queue_fill (queue : scanner_queue_t) : List scanner_queue_entry →
    Option scanner_queue_t
  | [] => some queue
  | entry :: rest =>
    match scanner_queue_add queue entry with
    | some queue1 => scanner_queue_fill queue1 rest
    | none => none

/-- Modelled from the spec: a stub block for `target` is created: "a
placeholder that, when reached, re-enters the Dispatcher".  It takes a new
metadata slot and `stub_size` bytes at the write cursor, and is entered in the
address index like a translation. -/
def stub_bb (env : scan_env) (t : dbm_thread) (target : Nat) :
    Except dbm_error (Nat × dbm_thread) :=
  match allocate_bb env t with
  | .error e => .error e
  | .ok (basic_block, t1) =>
    .ok (t1.bb_cache_next, install_block t1 basic_block target env.stub_size)

/-- Modelled from the spec: the body of `scanner_queue_process` is not in
`dbm.h`.  "`process_queue(ctx, queue)`: for each item, resolves via Address
Index (link directly if already cached) or creates a stub block".  The patch
of the link site does not touch index or metadata and is left out. -/
def scanner_queue_process (env : scan_env) (t : dbm_thread) :
    List scanner_queue_entry → Except dbm_error dbm_thread
  | [] => .ok t
  | entry :: rest =>
    match cc_lookup t entry.spc with
    | some _ => scanner_queue_process env t rest
    | none =>
      match stub_bb env t entry.spc with
      | .error e => .error e
      | .ok (_, t1) => scanner_queue_process env t1 rest

/-- Modelled from the spec: the body of `scan` is not in `dbm.h`.
"`scan(ctx, source_address) -> translated_address`: decodes instructions
[...]; emits the rewritten instruction stream into the current write cursor;
[...] records it in the new metadata slot.  Any branch target discovered is
not scanned recursively, it is appended to a bounded work queue".  With
`stub_id = ALLOCATE_BB` a new slot is allocated, otherwise the slot `stub_id`
of the stub is taken over.  An instruction that the codec cannot classify is
`UnsupportedInstruction`, more targets than the queue holds are
`ScanQueueOverflow`; the block is entered in the index before its queue is
processed. -/
def scan (env : scan_env) (t : dbm_thread) (address : Nat) (stub_id : Nat) :
    Except dbm_error (Nat × dbm_thread) :=
  match (if stub_id = ALLOCATE_BB then allocate_bb env t else .ok (stub_id, t)) with
  | .error e => .error e
  | .ok (basic_block, t1) =>
    match env.scan_isa address with
    | none => .error dbm_error.UnsupportedInstruction
    | some (size, targets) =>
      match scanner_queue_fill { entries := [] } targets with
      | none => .error dbm_error.ScanQueueOverflow
      | some queue =>
        match scanner_queue_process env (install_block t1 basic_block address size)
            queue.entries with
        | .error e => .error e
        | .ok t2 => .ok (t1.bb_cache_next, t2)

/-- Modelled from the spec: the body of `lookup_or_scan` is not in `dbm.h`.
"`lookup_or_scan`: on hit, returns the cached address; on miss, invokes the
Scanner, inserts the new (source, translated) pair, and returns the new
address"; "`CacheExhausted` [...] recoverable, triggers a flush and retry";
the fatal failures are passed on.  The result is the translated address, the
value stored through `cached`, and the updated thread. -/
def lookup_or_scan (env : scan_env) (t : dbm_thread) (target : Nat) :
    Except dbm_error (Nat × Bool × dbm_thread) :=
  match cc_lookup t target with
  | some block_address => .ok (block_address, true, t)
  | none =>
    match scan env t target ALLOCATE_BB with
    | .ok (block_address, t1) => .ok (block_address, false, t1)
    | .error dbm_error.CacheExhausted =>
      match scan env (flush_code_cache env t) target ALLOCATE_BB with
      | .ok (block_address, t1) => .ok (block_address, false, t1)
      | .error e => .error e
    | .error e => .error e

/-- Modelled from the spec: the body of `lookup_or_stub` is not in `dbm.h`.
"`lookup_or_stub`: identical but produces a stub rather than a full
translation". -/
def lookup_or_stub (env : scan_env) (t : dbm_thread) (target : Nat) :
    Except dbm_error (Nat × dbm_thread) :=
  match cc_lookup t target with
  | some block_address => .ok (block_address, t)
  | none =>
    match stub_bb env t target with
    | .ok r => .ok r
    | .error dbm_error.CacheExhausted => stub_bb env (flush_code_cache env t) target
    | .error e => .error e

/-- A call of one of the two lookup entry points, with its target. -/
inductive lookup_call where
  | or_scan (target : Nat)
  | or_stub (target : Nat)
deriving Repr, DecidableEq

/-- A run of `lookup_or_scan` and `lookup_or_stub` calls, in order; it stops
at the first call that fails. -/
def run_lookups (env : scan_env) (t : dbm_thread) : List lookup_call → Except dbm_error dbm_thread
  | [] => .ok t
  | lookup_call.or_scan q :: rest =>
    match lookup_or_scan env t q with
    | .ok (_, _, t1) => run_lookups env t1 rest
    | .error e => .error e
  | lookup_call.or_stub q :: rest =>
    match lookup_or_stub env t q with
    | .ok (_, t1) => run_lookups env t1 rest
    | .error e => .error e

/-- A thread with an empty cache, as after `init_thread`. -/
def thread_init (env : scan_env) : dbm_thread :=
  { free_block := 0, was_flushed := false, code_cache_meta := fun _ => ⟨0, 0⟩,
    entry_address := [], bb_cache_next := env.bbs }

/-- A concrete environment: traces enabled, no plugins, block region at
0x100000, stubs of 16 bytes; every block takes 64 bytes and ends in a
conditional branch to the addresses 32 and 64 bytes further on. -/
def env_example : scan_env :=
  { dbm_traces := true, plugins_new := false, global_data := ⟨0⟩, bbs := 1048576,
    stub_size := 16,
    scan_isa := fun a => some (64, [⟨a + 32, 0, 0⟩, ⟨a + 64, 0, 0⟩]) }

/-- The environment `env_example` with a codec that cannot classify the
instruction at address 0x8000. -/
def env_unsupported : scan_env :=
  { env_example with
    scan_isa := fun a => if a = 32768 then none else env_example.scan_isa a }

/-- The environment `env_example` with a block at 0x8000 that discovers eleven
branch targets. -/
def env_overflow : scan_env :=
  { env_example with
    scan_isa := fun a =>
      if a = 32768 then some (64, (List.range 11).map (fun i => ⟨a + 4 * i, 0, 0⟩))
      else env_example.scan_isa a }

/-- The environment `env_example` with `PLUGINS_NEW` and a plugin count for
which `MIN_FSPACE` exceeds the block region. -/
def env_no_room : scan_env :=
  { env_example with plugins_new := true, global_data := ⟨20000⟩ }

/-- The environment `env_example` with blocks that fill the whole block
region, so that each scan after the first one exhausts the cache. -/
def env_full : scan_env :=
  { env_example with scan_isa := fun _ => some (14680064, []) }

/-- A context whose metadata table has two slots for source address 0x8000,
against one index entry. -/
def thread_two_slots : dbm_thread :=
  { free_block := 2, was_flushed := false, code_cache_meta := fun _ => ⟨32768, 1048576⟩,
    entry_address := [(32768, 1048576)], bb_cache_next := 1048704 }

/-- What is observed of a `lookup_or_scan` result: the address, the `cached`
flag, and of the thread the flag `was_flushed` and the number of allocated
metadata slots with source address `p`. -/
def observe (r : Except dbm_error (Nat × Bool × dbm_thread)) (p : Nat) :
    Option (Nat × Bool × Bool × Nat) :=
  match r with
  | .ok (a, c, t) => some (a, c, t.was_flushed, slots_with_source t p)
  | .error _ => none

/-- The failure of a `lookup_or_scan` call, if it failed. -/
def failure (r : Except dbm_error (Nat × Bool × dbm_thread)) : Option dbm_error :=
  match r with
  | .ok _ => none
  | .error e => some e

/-- Two `lookup_or_scan` calls for `p` with a direct `scan` of `p` between
them; the result is that of the second `lookup_or_scan`. -/
def lookup_scan_lookup (env : scan_env) (t : dbm_thread) (p : Nat) :
    Except dbm_error (Nat × Bool × dbm_thread) :=
  match lookup_or_scan env t p with
  | .error e => .error e
  | .ok (_, _, t1) =>
    match scan env t1 p ALLOCATE_BB with
    | .error e => .error e
    | .ok (_, t2) => lookup_or_scan env t2 p

/-! ## Helper lemmas on `ROUND_UP` -/

lemma ROUND_UP_of_dvd (input m : Nat) (h : input % m = 0) : ROUND_UP input m = input := by
  unfold ROUND_UP
  have := Nat.div_add_mod input m
  rw [Nat.mul_comm] at this
  simp [h] at this ⊢
  omega

lemma ROUND_UP_of_not_dvd (input m : Nat) (h : input % m ≠ 0) :
    ROUND_UP input m = (input / m + 1) * m := by
  unfold ROUND_UP
  simp [h, Nat.add_mul]

lemma ROUND_UP_dvd (input m : Nat) : m ∣ ROUND_UP input m := by
  unfold ROUND_UP
  split
  · exact Dvd.intro_left (input / m + 1) (by ring)
  · exact Dvd.intro_left (input / m) (by ring)

lemma ROUND_UP_ge (input m : Nat) (hm : 0 < m) : input ≤ ROUND_UP input m := by
  by_cases h : input % m = 0
  · rw [ROUND_UP_of_dvd input m h]
  · rw [ROUND_UP_of_not_dvd input m h]
    have h1 := Nat.div_add_mod input m
    have h2 := Nat.mod_lt input hm
    have h3 : (input / m + 1) * m = m * (input / m) + m := by ring
    omega

lemma ROUND_UP_lt (input m : Nat) (hm : 0 < m) : ROUND_UP input m < input + m := by
  by_cases h : input % m = 0
  · rw [ROUND_UP_of_dvd input m h]; omega
  · rw [ROUND_UP_of_not_dvd input m h]
    have h1 := Nat.div_add_mod input m
    have h3 : (input / m + 1) * m = m * (input / m) + m := by ring
    omega

lemma ROUND_UP_le_of_multiple (input m k : Nat) (hk : m ∣ k) (hle : input ≤ k) :
    ROUND_UP input m ≤ k := by
  by_cases h : input % m = 0
  · rw [ROUND_UP_of_dvd input m h]; exact hle
  · rw [ROUND_UP_of_not_dvd input m h]
    obtain ⟨j, rfl⟩ := hk
    have h1 := Nat.div_add_mod input m
    have hlt : m * (input / m) < m * j := by omega
    have hj : input / m + 1 ≤ j := Nat.lt_of_mul_lt_mul_left hlt
    calc (input / m + 1) * m = m * (input / m + 1) := by ring
      _ ≤ m * j := Nat.mul_le_mul_left m hj

lemma ROUND_UP_w_eq (bits input m : Nat) (h : ROUND_UP input m < 2 ^ bits) :
    ROUND_UP_w bits input m = ROUND_UP input m := by
  unfold ROUND_UP_w
  unfold ROUND_UP at h
  have h1 : input / m * m < 2 ^ bits := by omega
  rw [Nat.mod_eq_of_lt h1, Nat.mod_eq_of_lt h]
  rfl

lemma CC_PAGE_SIZE_pos (cc_hugetlb : Bool) : 0 < CC_PAGE_SIZE cc_hugetlb := by
  cases cc_hugetlb <;> decide

/-! ## Helper lemmas on bit tests, trace exits and entry adjustment -/

lemma and_two_pow_ne_zero (x i : Nat) : x &&& 2 ^ i ≠ 0 ↔ x.testBit i = true := by
  rw [Nat.and_two_pow]
  have hpos : 0 < 2 ^ i := Nat.pos_pow_of_pos i (by decide)
  cases h : x.testBit i
  · simp
  · simp [Nat.pos_iff_ne_zero.mp hpos]

lemma or_and_two_pow_ne_zero (x y i : Nat) :
    (x ||| y) &&& 2 ^ i ≠ 0 ↔ (x &&& 2 ^ i ≠ 0 ∨ y &&& 2 ^ i ≠ 0) := by
  simp only [and_two_pow_ne_zero, Nat.testBit_or, Bool.or_eq_true]

lemma record_trace_exit_some (t : trace_in_prog) (e : trace_exits) (k : Nat)
    (hk : t.free_exit_rec = (k : Int)) (hlt : k < MAX_TRACE_REC_EXITS) :
    ∃ t1, record_trace_exit t e = some t1
      ∧ t1.free_exit_rec = ((k + 1 : Nat) : Int)
      ∧ t1.exits ⟨k, hlt⟩ = e
      ∧ ∀ j : Fin MAX_TRACE_REC_EXITS, j.val ≠ k → t1.exits j = t.exits j := by
  have hto : t.free_exit_rec.toNat = k := by rw [hk]; exact Int.toNat_natCast k
  have hcond : 0 ≤ t.free_exit_rec ∧ t.free_exit_rec.toNat < MAX_TRACE_REC_EXITS := by
    constructor
    · rw [hk]; exact Int.natCast_nonneg k
    · rw [hto]; exact hlt
  refine ⟨_, by simp only [record_trace_exit, dif_pos hcond]; rfl, ?_, ?_, ?_⟩
  · simp only [hk]; push_cast; rfl
  · have hidx : (⟨k, hlt⟩ : Fin MAX_TRACE_REC_EXITS) = ⟨t.free_exit_rec.toNat, hcond.2⟩ :=
      Fin.ext hto.symm
    show Function.update t.exits ⟨t.free_exit_rec.toNat, hcond.2⟩ e ⟨k, hlt⟩ = e
    rw [hidx]
    exact Function.update_same _ _ _
  · intro j hj
    have hne : j ≠ ⟨t.free_exit_rec.toNat, hcond.2⟩ := by
      intro h
      apply hj
      rw [h]
      exact hto
    exact Function.update_noteq hne _ _

lemma record_trace_exits_from (es : List trace_exits) :
    ∀ (t : trace_in_prog) (k : Nat), t.free_exit_rec = (k : Int) →
      k + es.length ≤ MAX_TRACE_REC_EXITS →
      ∃ t1, record_trace_exits t es = some t1
        ∧ t1.free_exit_rec = ((k + es.length : Nat) : Int)
        ∧ (∀ (i : Nat) (hi : i < es.length) (hb : k + i < MAX_TRACE_REC_EXITS),
            t1.exits ⟨k + i, hb⟩ = es.get ⟨i, hi⟩)
        ∧ (∀ j : Fin MAX_TRACE_REC_EXITS, j.val < k → t1.exits j = t.exits j) := by
  induction es with
  | nil =>
    intro t k hk _
    exact ⟨t, rfl, by simpa using hk, fun i hi => absurd hi (Nat.not_lt_zero i), fun _ _ => rfl⟩
  | cons e es ih =>
    intro t k hk hlen
    simp only [List.length_cons] at hlen
    have hlt : k < MAX_TRACE_REC_EXITS := by omega
    obtain ⟨t1, h1, hfree1, hat1, hother1⟩ := record_trace_exit_some t e k hk hlt
    obtain ⟨t2, h2, hfree2, hat2, hother2⟩ := ih t1 (k + 1) hfree1 (by omega)
    refine ⟨t2, by simp only [record_trace_exits, h1, h2], ?_, ?_, ?_⟩
    · rw [hfree2]; simp only [List.length_cons]; congr 1; omega
    · intro i hi hb
      cases i with
      | zero =>
        have := hother2 ⟨k, hlt⟩ (by simp)
        simp only [Nat.add_zero, List.get_cons_zero] at this ⊢
        rw [this, hat1]
        rfl
      | succ i =>
        have hi2 : i < es.length := by simpa using hi
        have hb2 : k + 1 + i < MAX_TRACE_REC_EXITS := by omega
        have := hat2 i hi2 hb2
        have hidx : (⟨k + (i + 1), hb⟩ : Fin MAX_TRACE_REC_EXITS) = ⟨k + 1 + i, hb2⟩ :=
          Fin.ext (by simp only; omega)
        rw [hidx, this]
        rfl
    · intro j hj
      rw [hother2 j (by omega), hother1 j (by omega)]

lemma adjust_cc_entry_arm_even (addr : Nat) (hne : addr ≠ UINT_MAX) (h : addr % 2 = 0) :
    adjust_cc_entry true addr = (addr + 4) % 2 ^ 32 := by
  simp only [adjust_cc_entry, if_true, if_pos hne, Nat.and_one_is_mod, Nat.shiftLeft_eq, h]
  norm_num

lemma adjust_cc_entry_arm_odd (addr : Nat) (hne : addr ≠ UINT_MAX) (h : addr % 2 = 1) :
    adjust_cc_entry true addr = (addr + 2) % 2 ^ 32 := by
  simp only [adjust_cc_entry, if_true, if_pos hne, Nat.and_one_is_mod, Nat.shiftLeft_eq, h]
  norm_num

/-! ## Helper lemmas on the address index and lookup-or-scan -/

lemma MIN_FSPACE_lt_BB_CACHE_SIZE (plugins_new dbm_traces : Bool) (g : dbm_global)
    (h1 : g.free_plugin ≤ MAX_PLUGIN_NO) :
    MIN_FSPACE plugins_new g < BB_CACHE_SIZE dbm_traces := by
  have hmax : MAX_PLUGIN_NO = 10 := rfl
  have hunit : MIN_FSPACE_UNIT = 1024 := rfl
  have hbb : BB_CACHE_SIZE dbm_traces ≥ 14680064 := by
    cases dbm_traces <;> decide
  rw [hmax] at h1
  cases plugins_new
  · simp only [MIN_FSPACE, hunit, Bool.false_eq_true, if_false]; omega
  · simp only [MIN_FSPACE, hunit, if_true]; omega

lemma cc_lookup_none_iff (t : dbm_thread) (s : Nat) :
    cc_lookup t s = none ↔ s ∉ index_keys t := by
  unfold cc_lookup index_keys
  rw [List.lookup_eq_none_iff]
  constructor
  · intro h hmem
    obtain ⟨q, hq, hqs⟩ := List.mem_map.mp hmem
    have := h q hq
    simp [hqs] at this
  · intro h q hq
    have hne : s ≠ q.1 := fun heq => h (List.mem_map.mpr ⟨q, hq, heq.symm⟩)
    simpa using hne

lemma cc_lookup_some_mem (t : dbm_thread) (s a : Nat) (h : cc_lookup t s = some a) :
    s ∈ index_keys t := by
  by_contra hns
  rw [(cc_lookup_none_iff t s).mpr hns] at h
  exact Option.noConfusion h

lemma slots_with_source_of_hit (t : dbm_thread) (p a : Nat) (hwf : cc_consistent t)
    (h : cc_lookup t p = some a) : slots_with_source t p = 1 :=
  List.count_eq_one_of_mem hwf.2.2 (hwf.1 p (cc_lookup_some_mem t p a h))

lemma lookup_or_scan_hit (env : scan_env) (t : dbm_thread) (p a : Nat)
    (h : cc_lookup t p = some a) : lookup_or_scan env t p = .ok (a, true, t) := by
  simp only [lookup_or_scan, h]

lemma allocate_bb_ok (env : scan_env) (t : dbm_thread) (id : Nat) (t1 : dbm_thread)
    (h : allocate_bb env t = .ok (id, t1)) :
    id = t.free_block ∧ t1 = { t with free_block := t.free_block + 1 } := by
  unfold allocate_bb at h
  split_ifs at h with hc
  simp only [Except.ok.injEq, Prod.mk.injEq] at h
  exact ⟨h.1.symm, h.2.symm⟩

lemma allocate_bb_error (env : scan_env) (t : dbm_thread) (e : dbm_error)
    (h : allocate_bb env t = .error e) : e = dbm_error.CacheExhausted := by
  unfold allocate_bb at h
  split_ifs at h with hc
  simp only [Except.error.injEq] at h
  exact h.symm

lemma slot_sources_extend (t t1 : dbm_thread) (p a : Nat)
    (hfree : t1.free_block = t.free_block + 1)
    (hmeta : t1.code_cache_meta = Function.update t.code_cache_meta t.free_block ⟨p, a⟩) :
    slot_sources t1 = slot_sources t ++ [p] := by
  unfold slot_sources
  rw [hfree, List.range_succ, List.map_append, hmeta]
  congr 1
  · apply List.map_congr_left
    intro i hi
    have hlt : i < t.free_block := List.mem_range.mp hi
    have hne : i ≠ t.free_block := Nat.ne_of_lt hlt
    simp only [Function.update_noteq hne]
  · simp only [List.map_cons, List.map_nil, Function.update_same]

lemma install_consistent (env : scan_env) (t t1 : dbm_thread) (id p size : Nat)
    (hwf : cc_consistent t) (hmiss : cc_lookup t p = none)
    (halloc : allocate_bb env t = .ok (id, t1)) :
    cc_consistent (install_block t1 id p size)
      ∧ cc_lookup (install_block t1 id p size) p = some t1.bb_cache_next
      ∧ (install_block t1 id p size).was_flushed = t.was_flushed
      ∧ ∀ s x, cc_lookup t s = some x → cc_lookup (install_block t1 id p size) s = some x := by
  obtain ⟨hid, ht1⟩ := allocate_bb_ok env t id t1 halloc
  subst hid
  subst ht1
  have hsrc : slot_sources (install_block { t with free_block := t.free_block + 1 }
      t.free_block p size) = slot_sources t ++ [p] :=
    slot_sources_extend t _ p t.bb_cache_next rfl rfl
  have hkeys : index_keys (install_block { t with free_block := t.free_block + 1 }
      t.free_block p size) = p :: index_keys t := rfl
  have hpk : p ∉ index_keys t := (cc_lookup_none_iff t p).mp hmiss
  have hps : p ∉ slot_sources t := fun hm => hpk (hwf.2.1 p hm)
  refine ⟨⟨?_, ?_, ?_⟩, ?_, rfl, ?_⟩
  · intro s hs
    rw [hkeys] at hs
    rw [hsrc]
    rcases List.mem_cons.mp hs with rfl | hs
    · exact List.mem_append_right _ (List.mem_singleton_self _)
    · exact List.mem_append_left _ (hwf.1 s hs)
  · intro s hs
    rw [hsrc] at hs
    rw [hkeys]
    rcases List.mem_append.mp hs with hs | hs
    · exact List.mem_cons_of_mem _ (hwf.2.1 s hs)
    · rw [List.mem_singleton.mp hs]; exact List.mem_cons_self _ _
  · rw [hsrc]
    refine List.Nodup.append hwf.2.2 (List.nodup_singleton p) ?_
    intro s hs hs1
    rw [List.mem_singleton.mp hs1] at hs
    exact hps hs
  · simp [cc_lookup, install_block, List.lookup_cons]
  · intro s x hsx
    have hsp : s ≠ p := by
      intro heq
      rw [heq, hmiss] at hsx
      exact Option.noConfusion hsx
    have hbeq : (s == p) = false := by simpa using hsp
    unfold cc_lookup at hsx ⊢
    simp only [install_block, List.lookup_cons, hbeq]
    exact hsx

lemma stub_bb_spec (env : scan_env) (t : dbm_thread) (q a : Nat) (t1 : dbm_thread)
    (hwf : cc_consistent t) (hmiss : cc_lookup t q = none)
    (h : stub_bb env t q = .ok (a, t1)) :
    cc_consistent t1 ∧ cc_lookup t1 q = some a ∧ t1.was_flushed = t.was_flushed
      ∧ ∀ s x, cc_lookup t s = some x → cc_lookup t1 s = some x := by
  unfold stub_bb at h
  cases halloc : allocate_bb env t with
  | error e => rw [halloc] at h; exact Except.noConfusion h
  | ok r =>
    obtain ⟨id, t0⟩ := r
    rw [halloc] at h
    simp only [Except.ok.injEq, Prod.mk.injEq] at h
    obtain ⟨ha, ht⟩ := h
    subst ha
    subst ht
    exact install_consistent env t t0 id q env.stub_size hwf hmiss halloc

lemma stub_bb_error (env : scan_env) (t : dbm_thread) (q : Nat) (e : dbm_error)
    (h : stub_bb env t q = .error e) : e = dbm_error.CacheExhausted := by
  unfold stub_bb at h
  cases halloc : allocate_bb env t with
  | error e1 =>
    rw [halloc] at h
    simp only [Except.error.injEq] at h
    rw [← h]
    exact allocate_bb_error env t e1 halloc
  | ok r => rw [halloc] at h; exact Except.noConfusion h

lemma scanner_queue_process_spec (env : scan_env) (entries : List scanner_queue_entry) :
    ∀ t t2 : dbm_thread, cc_consistent t → scanner_queue_process env t entries = .ok t2 →
      cc_consistent t2 ∧ t2.was_flushed = t.was_flushed
        ∧ ∀ s x, cc_lookup t s = some x → cc_lookup t2 s = some x := by
  induction entries with
  | nil =>
    intro t t2 hwf h
    simp only [scanner_queue_process, Except.ok.injEq] at h
    subst h
    exact ⟨hwf, rfl, fun _ _ hx => hx⟩
  | cons entry rest ih =>
    intro t t2 hwf h
    cases hl : cc_lookup t entry.spc with
    | some a =>
      simp only [scanner_queue_process, hl] at h
      exact ih t t2 hwf h
    | none =>
      cases hs : stub_bb env t entry.spc with
      | error e =>
        simp only [scanner_queue_process, hl, hs] at h
        exact Except.noConfusion h
      | ok r =>
        obtain ⟨a, t1⟩ := r
        simp only [scanner_queue_process, hl, hs] at h
        obtain ⟨hwf1, _, hflag1, hpres1⟩ := stub_bb_spec env t entry.spc a t1 hwf hl hs
        obtain ⟨hwf2, hflag2, hpres2⟩ := ih t1 t2 hwf1 h
        exact ⟨hwf2, by rw [hflag2, hflag1], fun s x hx => hpres2 s x (hpres1 s x hx)⟩

lemma scanner_queue_process_error (env : scan_env) (entries : List scanner_queue_entry) :
    ∀ (t : dbm_thread) (e : dbm_error), scanner_queue_process env t entries = .error e →
      e = dbm_error.CacheExhausted := by
  induction entries with
  | nil =>
    intro t e h
    simp only [scanner_queue_process] at h
    exact Except.noConfusion h
  | cons entry rest ih =>
    intro t e h
    cases hl : cc_lookup t entry.spc with
    | some a =>
      simp only [scanner_queue_process, hl] at h
      exact ih t e h
    | none =>
      cases hs : stub_bb env t entry.spc with
      | error e1 =>
        simp only [scanner_queue_process, hl, hs, Except.error.injEq] at h
        rw [← h]
        exact stub_bb_error env t entry.spc e1 hs
      | ok r =>
        obtain ⟨a, t1⟩ := r
        simp only [scanner_queue_process, hl, hs] at h
        exact ih t1 e h

lemma flush_consistent (env : scan_env) (t : dbm_thread) :
    cc_consistent (flush_code_cache env t) := by
  refine ⟨?_, ?_, ?_⟩
  · intro s hs
    simp [index_keys, flush_code_cache] at hs
  · intro s hs
    simp [slot_sources, flush_code_cache] at hs
  · simp [slot_sources, flush_code_cache]

lemma scan_spec (env : scan_env) (t : dbm_thread) (p a : Nat) (t2 : dbm_thread)
    (hwf : cc_consistent t) (hmiss : cc_lookup t p = none)
    (h : scan env t p ALLOCATE_BB = .ok (a, t2)) :
    cc_consistent t2 ∧ cc_lookup t2 p = some a ∧ t2.was_flushed = t.was_flushed
      ∧ ∀ s x, cc_lookup t s = some x → cc_lookup t2 s = some x := by
  unfold scan at h
  rw [if_pos rfl] at h
  cases halloc : allocate_bb env t with
  | error e => rw [halloc] at h; exact Except.noConfusion h
  | ok r =>
    obtain ⟨id, t1⟩ := r
    rw [halloc] at h
    cases hisa : env.scan_isa p with
    | none => simp only [hisa] at h; exact Except.noConfusion h
    | some blk =>
      obtain ⟨size, targets⟩ := blk
      simp only [hisa] at h
      cases hfill : scanner_queue_fill { entries := [] } targets with
      | none => simp only [hfill] at h; exact Except.noConfusion h
      | some queue =>
        simp only [hfill] at h
        cases hproc : scanner_queue_process env (install_block t1 id p size) queue.entries with
        | error e => simp only [hproc] at h; exact Except.noConfusion h
        | ok t3 =>
          simp only [hproc, Except.ok.injEq, Prod.mk.injEq] at h
          obtain ⟨ha, ht⟩ := h
          subst ha
          subst ht
          obtain ⟨hwf1, hl1, hflag1, hpres1⟩ :=
            install_consistent env t t1 id p size hwf hmiss halloc
          obtain ⟨hwf3, hflag3, hpres3⟩ :=
            scanner_queue_process_spec env queue.entries _ t3 hwf1 hproc
          exact ⟨hwf3, hpres3 p _ hl1, by rw [hflag3, hflag1],
            fun s x hx => hpres3 s x (hpres1 s x hx)⟩

lemma scan_fatal (env : scan_env) (t : dbm_thread) (p stub_id : Nat) (e : dbm_error)
    (h : scan env t p stub_id = .error e) (hne : e ≠ dbm_error.CacheExhausted) :
    ∀ (t0 : dbm_thread) (stub0 : Nat) (r : Nat × dbm_thread),
      scan env t0 p stub0 ≠ .ok r := by
  intro t0 stub0 r h0
  unfold scan at h h0
  cases hisa : env.scan_isa p with
  | none =>
    split at h0
    · exact Except.noConfusion h0
    · simp only [hisa] at h0
      exact Except.noConfusion h0
  | some blk =>
    obtain ⟨size, targets⟩ := blk
    cases hfill : scanner_queue_fill { entries := [] } targets with
    | none =>
      split at h0
      · exact Except.noConfusion h0
      · simp only [hisa, hfill] at h0
        exact Except.noConfusion h0
    | some queue =>
      split at h
      · rename_i e1 halloc
        simp only [Except.error.injEq] at h
        subst h
        split_ifs at halloc with hs
        exact hne (allocate_bb_error env t e1 halloc)
      · rename_i id t1 halloc
        simp only [hisa, hfill] at h
        cases hproc : scanner_queue_process env (install_block t1 id p size) queue.entries with
        | error e2 =>
          simp only [hproc, Except.error.injEq] at h
          subst h
          exact hne (scanner_queue_process_error env queue.entries _ e2 hproc)
        | ok t3 =>
          simp only [hproc] at h
          exact Except.noConfusion h

lemma lookup_or_scan_step (env : scan_env) (t : dbm_thread) (q a : Nat) (c : Bool)
    (t1 : dbm_thread) (hwf : cc_consistent t)
    (h : lookup_or_scan env t q = .ok (a, c, t1)) :
    cc_consistent t1 ∧ cc_lookup t1 q = some a
      ∧ (t1.was_flushed = false →
          t.was_flushed = false ∧ ∀ s x, cc_lookup t s = some x → cc_lookup t1 s = some x) := by
  cases hl : cc_lookup t q with
  | some a0 =>
    rw [lookup_or_scan_hit env t q a0 hl] at h
    simp only [Except.ok.injEq, Prod.mk.injEq] at h
    obtain ⟨ha, _, ht⟩ := h
    subst ha
    subst ht
    exact ⟨hwf, hl, fun hf => ⟨hf, fun _ _ hx => hx⟩⟩
  | none =>
    cases hs : scan env t q ALLOCATE_BB with
    | ok r =>
      obtain ⟨a0, t0⟩ := r
      simp only [lookup_or_scan, hl, hs, Except.ok.injEq, Prod.mk.injEq] at h
      obtain ⟨ha, _, ht⟩ := h
      subst ha
      subst ht
      obtain ⟨hwf1, hl1, hflag, hpres⟩ := scan_spec env t q a0 t0 hwf hl hs
      exact ⟨hwf1, hl1, fun hf => ⟨by rw [← hflag]; exact hf, hpres⟩⟩
    | error e =>
      cases e with
      | CacheExhausted =>
        cases hs2 : scan env (flush_code_cache env t) q ALLOCATE_BB with
        | ok r =>
          obtain ⟨a0, t0⟩ := r
          simp only [lookup_or_scan, hl, hs, hs2, Except.ok.injEq, Prod.mk.injEq] at h
          obtain ⟨ha, _, ht⟩ := h
          subst ha
          subst ht
          have hl2 : cc_lookup (flush_code_cache env t) q = none := by
            simp [cc_lookup, flush_code_cache]
          obtain ⟨hwf1, hl1, hflag, _⟩ :=
            scan_spec env (flush_code_cache env t) q a0 t0 (flush_consistent env t) hl2 hs2
          refine ⟨hwf1, hl1, ?_⟩
          intro hf
          rw [hflag] at hf
          simp [flush_code_cache] at hf
        | error e2 =>
          simp only [lookup_or_scan, hl, hs, hs2] at h
          exact Except.noConfusion h
      | ScanQueueOverflow =>
        simp only [lookup_or_scan, hl, hs] at h
        exact Except.noConfusion h
      | UnsupportedInstruction =>
        simp only [lookup_or_scan, hl, hs] at h
        exact Except.noConfusion h

lemma lookup_or_scan_returns (env : scan_env) (t : dbm_thread) (p : Nat)
    (hscan : (scan env (flush_code_cache env t) p ALLOCATE_BB).isOk = true) :
    ∃ a c t1, lookup_or_scan env t p = .ok (a, c, t1) := by
  cases hl : cc_lookup t p with
  | some a0 => exact ⟨a0, true, t, lookup_or_scan_hit env t p a0 hl⟩
  | none =>
    cases hs2 : scan env (flush_code_cache env t) p ALLOCATE_BB with
    | error e2 =>
      rw [hs2] at hscan
      exact Bool.noConfusion hscan
    | ok r2 =>
      cases hs : scan env t p ALLOCATE_BB with
      | ok r =>
        exact ⟨r.1, false, r.2, by simp only [lookup_or_scan, hl, hs]⟩
      | error e =>
        cases e with
        | CacheExhausted =>
          exact ⟨r2.1, false, r2.2, by simp only [lookup_or_scan, hl, hs, hs2]⟩
        | ScanQueueOverflow =>
          exact absurd hs2 (scan_fatal env t p ALLOCATE_BB _ hs (by decide) _ _ r2)
        | UnsupportedInstruction =>
          exact absurd hs2 (scan_fatal env t p ALLOCATE_BB _ hs (by decide) _ _ r2)

lemma lookup_or_stub_step (env : scan_env) (t : dbm_thread) (q a : Nat) (t1 : dbm_thread)
    (hwf : cc_consistent t) (h : lookup_or_stub env t q = .ok (a, t1)) :
    cc_consistent t1 ∧ cc_lookup t1 q = some a
      ∧ (t1.was_flushed = false →
          t.was_flushed = false ∧ ∀ s x, cc_lookup t s = some x → cc_lookup t1 s = some x) := by
  cases hl : cc_lookup t q with
  | some a0 =>
    simp only [lookup_or_stub, hl, Except.ok.injEq, Prod.mk.injEq] at h
    obtain ⟨ha, ht⟩ := h
    subst ha
    subst ht
    exact ⟨hwf, hl, fun hf => ⟨hf, fun _ _ hx => hx⟩⟩
  | none =>
    cases hs : stub_bb env t q with
    | ok r =>
      obtain ⟨a0, t0⟩ := r
      simp only [lookup_or_stub, hl, hs, Except.ok.injEq, Prod.mk.injEq] at h
      obtain ⟨ha, ht⟩ := h
      subst ha
      subst ht
      obtain ⟨hwf1, hl1, hflag, hpres⟩ := stub_bb_spec env t q a0 t0 hwf hl hs
      exact ⟨hwf1, hl1, fun hf => ⟨by rw [← hflag]; exact hf, hpres⟩⟩
    | error e =>
      have he := stub_bb_error env t q e hs
      subst he
      simp only [lookup_or_stub, hl, hs] at h
      have hl2 : cc_lookup (flush_code_cache env t) q = none := by
        simp [cc_lookup, flush_code_cache]
      obtain ⟨hwf1, hl1, hflag, _⟩ :=
        stub_bb_spec env (flush_code_cache env t) q a t1 (flush_consistent env t) hl2 h
      refine ⟨hwf1, hl1, ?_⟩
      intro hf
      rw [hflag] at hf
      simp [flush_code_cache] at hf

lemma run_lookups_spec (env : scan_env) (calls : List lookup_call) :
    ∀ t t2 : dbm_thread, cc_consistent t → run_lookups env t calls = .ok t2 →
      cc_consistent t2
        ∧ (t2.was_flushed = false →
            t.was_flushed = false ∧ ∀ s x, cc_lookup t s = some x → cc_lookup t2 s = some x) := by
  induction calls with
  | nil =>
    intro t t2 hwf h
    simp only [run_lookups, Except.ok.injEq] at h
    subst h
    exact ⟨hwf, fun hf => ⟨hf, fun _ _ hx => hx⟩⟩
  | cons call rest ih =>
    intro t t2 hwf h
    cases call with
    | or_scan q =>
      cases hs : lookup_or_scan env t q with
      | error e =>
        simp only [run_lookups, hs] at h
        exact Except.noConfusion h
      | ok r =>
        obtain ⟨a, c, t1⟩ := r
        simp only [run_lookups, hs] at h
        obtain ⟨hwf1, _, hpres1⟩ := lookup_or_scan_step env t q a c t1 hwf hs
        obtain ⟨hwf2, hpres2⟩ := ih t1 t2 hwf1 h
        refine ⟨hwf2, fun hf => ?_⟩
        obtain ⟨hf1, hp2⟩ := hpres2 hf
        obtain ⟨hf0, hp1⟩ := hpres1 hf1
        exact ⟨hf0, fun s x hx => hp2 s x (hp1 s x hx)⟩
    | or_stub q =>
      cases hs : lookup_or_stub env t q with
      | error e =>
        simp only [run_lookups, hs] at h
        exact Except.noConfusion h
      | ok r =>
        obtain ⟨a, t1⟩ := r
        simp only [run_lookups, hs] at h
        obtain ⟨hwf1, _, hpres1⟩ := lookup_or_stub_step env t q a t1 hwf hs
        obtain ⟨hwf2, hpres2⟩ := ih t1 t2 hwf1 h
        refine ⟨hwf2, fun hf => ?_⟩
        obtain ⟨hf1, hp2⟩ := hpres2 hf
        obtain ⟨hf0, hp1⟩ := hpres1 hf1
        exact ⟨hf0, fun s x hx => hp2 s x (hp1 s x hx)⟩

lemma scan_after_flush_isOk (env : scan_env) (t : dbm_thread) (p size : Nat)
    (h1 : env.global_data.free_plugin ≤ MAX_PLUGIN_NO)
    (hisa : env.scan_isa p = some (size, [])) :
    (scan env (flush_code_cache env t) p ALLOCATE_BB).isOk = true := by
  have hmin := MIN_FSPACE_lt_BB_CACHE_SIZE env.plugins_new env.dbm_traces env.global_data h1
  have hmeta : (0 : Int) < BB_META_SIZE env.dbm_traces := by
    cases env.dbm_traces <;> decide
  have hc : (((flush_code_cache env t).free_block : Nat) : Int) < BB_META_SIZE env.dbm_traces
      ∧ MIN_FSPACE env.plugins_new env.global_data
          ≤ (env.bbs : Int) + BB_CACHE_SIZE env.dbm_traces
            - (((flush_code_cache env t).bb_cache_next : Nat) : Int) := by
    constructor
    · simpa [flush_code_cache] using hmeta
    · simp only [flush_code_cache]; omega
  simp only [scan, if_pos rfl, allocate_bb, if_pos hc, hisa, scanner_queue_fill,
    scanner_queue_process]
  rfl

lemma run_lookups_example :
    (match run_lookups env_example (thread_init env_example)
        [lookup_call.or_scan 32768, lookup_call.or_stub 20, lookup_call.or_scan 32800,
          lookup_call.or_scan 32768] with
      | .ok t => some (t.free_block, t.was_flushed, t.entry_address, slot_sources t)
      | .error _ => none)
      = some (4, false,
          [(20, 1048672), (32832, 1048656), (32800, 1048640), (32768, 1048576)],
          [32768, 32800, 32832, 20]) := by
  decide

lemma lookup_or_scan_flush_example :
    observe (lookup_or_scan env_full (thread_init env_full) 32768) 32768
        = some (1048576, false, false, 1)
      ∧ (match run_lookups env_full (thread_init env_full)
            [lookup_call.or_scan 32768, lookup_call.or_scan 4096] with
          | .ok t => some (t.free_block, t.was_flushed, t.entry_address, slot_sources t)
          | .error _ => none)
        = some (1, true, [(4096, 1048576)], [4096]) := by
  decide

/-! ## Claims C1 - C4 -/

/-- C1: for every size `input` and every positive `multiple_of`,
`ROUND_UP(input, multiple_of)` is the least multiple of `multiple_of` that is
at least `input`: it is divisible by `multiple_of`, it is `>= input`, it is
`< input + multiple_of`, it equals `input` when `input` is already a multiple,
and no multiple of `multiple_of` that is `>= input` is smaller.  When that
value fits the unsigned word (no overflow) the wrapping evaluation of the
macro yields it.  Consequently `CC_SZ_ROUND(input)` is the least multiple of
`CC_PAGE_SIZE` that is `>= input`, in both `CC_HUGETLB` configurations. -/
theorem ROUND_UP_least_multiple (input multiple_of : Nat) (hm : 0 < multiple_of) :
    (multiple_of ∣ ROUND_UP input multiple_of
      ∧ input ≤ ROUND_UP input multiple_of
      ∧ ROUND_UP input multiple_of < input + multiple_of
      ∧ (input % multiple_of = 0 → ROUND_UP input multiple_of = input)
      ∧ (∀ k, multiple_of ∣ k → input ≤ k → ROUND_UP input multiple_of ≤ k))
    ∧ (∀ bits, ROUND_UP input multiple_of < 2 ^ bits →
        ROUND_UP_w bits input multiple_of = ROUND_UP input multiple_of)
    ∧ (∀ cc_hugetlb : Bool,
        CC_PAGE_SIZE cc_hugetlb ∣ CC_SZ_ROUND cc_hugetlb input
        ∧ input ≤ CC_SZ_ROUND cc_hugetlb input
        ∧ (∀ k, CC_PAGE_SIZE cc_hugetlb ∣ k → input ≤ k → CC_SZ_ROUND cc_hugetlb input ≤ k)) := by
  refine ⟨⟨ROUND_UP_dvd _ _, ROUND_UP_ge _ _ hm, ROUND_UP_lt _ _ hm,
    ROUND_UP_of_dvd _ _, fun k hk hle => ROUND_UP_le_of_multiple _ _ k hk hle⟩,
    fun bits h => ROUND_UP_w_eq bits _ _ h, ?_⟩
  intro cc_hugetlb
  exact ⟨ROUND_UP_dvd _ _, ROUND_UP_ge _ _ (CC_PAGE_SIZE_pos _),
    fun k hk hle => ROUND_UP_le_of_multiple _ _ k hk hle⟩

/-- Witness for C1: rounding 5000 up to a multiple of 4096 gives 8192. -/
theorem ROUND_UP_least_multiple_witness :
    0 < 4096 ∧ ROUND_UP 5000 4096 = 8192 ∧ 4096 ∣ ROUND_UP 5000 4096
      ∧ 5000 ≤ ROUND_UP 5000 4096 :=
  ⟨by decide, by decide,
    (ROUND_UP_least_multiple 5000 4096 (by decide)).1.1,
    (ROUND_UP_least_multiple 5000 4096 (by decide)).1.2.1⟩

/-- C2 (evaluation at the failing configuration): with `CC_HUGETLB` undefined
and `METADATA_HUGETLB` defined, `METADATA_SZ_ROUND(1)` is 4096, which is at
least the input but is not a multiple of `METADATA_PAGE_SIZE` (2 MiB): the
macro rounds to `CC_PAGE_SIZE`. -/
theorem METADATA_SZ_ROUND_uses_cc_page_size :
    METADATA_SZ_ROUND false 1 = 4096
      ∧ METADATA_PAGE_SIZE true = 2097152
      ∧ ¬ (METADATA_PAGE_SIZE true ∣ METADATA_SZ_ROUND false 1)
      ∧ 1 ≤ METADATA_SZ_ROUND false 1 := by
  refine ⟨by decide, by decide, ?_, by decide⟩
  have h1 : METADATA_SZ_ROUND false 1 = 4096 := by decide
  have h2 : METADATA_PAGE_SIZE true = 2097152 := by decide
  rw [h1, h2]
  omega

/-- C3: in both build configurations (`DBM_TRACES` defined or not) the trace
region is strictly smaller than the total code cache and than the block
region, the block region is non-empty, the two regions add up to exactly
`TOTAL_CC_SIZE`, and the build-time guard
`TRACE_CACHE_SIZE >= TOTAL_CC_SIZE` does not fire. -/
theorem cache_layout_partition (dbm_traces : Bool) :
    TRACE_CACHE_SIZE dbm_traces < TOTAL_CC_SIZE
      ∧ TRACE_CACHE_SIZE dbm_traces < BB_CACHE_SIZE dbm_traces
      ∧ 0 < BB_CACHE_SIZE dbm_traces
      ∧ BB_CACHE_SIZE dbm_traces + TRACE_CACHE_SIZE dbm_traces = TOTAL_CC_SIZE
      ∧ trace_cache_guard dbm_traces = false
      ∧ TRACE_CACHE_SIZE dbm_traces = TRACE_CACHE_SIZE_tuned dbm_traces
      ∧ 0 ≤ TRACE_CACHE_SIZE dbm_traces := by
  cases dbm_traces <;> decide

/-- C4: `MIN_FSPACE` is `MIN_FSPACE_UNIT` (1024) without `PLUGINS_NEW`; with
`PLUGINS_NEW` and `n` registered plugins, `0 <= n <= MAX_PLUGIN_NO`, it is
`1024 * (1 + n)`, which is at least the no-plugin margin, strictly increasing
in `n`, equal to the no-plugin margin exactly when `n = 0`, representable as a
C `int`, and strictly smaller than `BB_CACHE_SIZE` in both `DBM_TRACES`
configurations. -/
theorem MIN_FSPACE_scaled (n : Int) (h0 : 0 ≤ n) (hn : n ≤ MAX_PLUGIN_NO) :
    (∀ g : dbm_global, MIN_FSPACE false g = MIN_FSPACE_UNIT)
      ∧ MIN_FSPACE_UNIT = 1024
      ∧ MIN_FSPACE true ⟨n⟩ = 1024 * (1 + n)
      ∧ MIN_FSPACE false ⟨n⟩ ≤ MIN_FSPACE true ⟨n⟩
      ∧ (∀ m : Int, n < m → m ≤ MAX_PLUGIN_NO → MIN_FSPACE true ⟨n⟩ < MIN_FSPACE true ⟨m⟩)
      ∧ (MIN_FSPACE true ⟨n⟩ = MIN_FSPACE false ⟨n⟩ ↔ n = 0)
      ∧ MIN_FSPACE true ⟨n⟩ < 2 ^ 31
      ∧ (∀ plugins_new dbm_traces : Bool,
          MIN_FSPACE plugins_new ⟨n⟩ < BB_CACHE_SIZE dbm_traces) := by
  have hmax : MAX_PLUGIN_NO = 10 := rfl
  have hunit : MIN_FSPACE_UNIT = 1024 := rfl
  have ht : MIN_FSPACE true ⟨n⟩ = 1024 * (1 + n) := by simp [MIN_FSPACE, hunit]
  have hf : ∀ g : dbm_global, MIN_FSPACE false g = 1024 := by
    intro g; simp [MIN_FSPACE, hunit]
  rw [hmax] at hn
  refine ⟨fun g => by rw [hf g, hunit], hunit, ht, ?_, ?_, ?_, ?_, ?_⟩
  · rw [ht, hf]; omega
  · intro m hnm _
    have hm : MIN_FSPACE true ⟨m⟩ = 1024 * (1 + m) := by simp [MIN_FSPACE, hunit]
    rw [ht, hm]; omega
  · rw [ht, hf]; omega
  · rw [ht]; omega
  · intro plugins_new dbm_traces
    exact MIN_FSPACE_lt_BB_CACHE_SIZE plugins_new dbm_traces ⟨n⟩ (by rw [hmax]; exact hn)

/-- Witness for C4: with the plugin registry full (10 plugins) the margin is
11264 bytes. -/
theorem MIN_FSPACE_scaled_witness :
    (0 : Int) ≤ 10 ∧ (10 : Int) ≤ MAX_PLUGIN_NO ∧ MIN_FSPACE true ⟨10⟩ = 1024 * (1 + 10) :=
  ⟨by decide, by decide, (MIN_FSPACE_scaled 10 (by decide) (by decide)).2.2.1⟩

/-! ## Claims C5, C7 - C10 -/

/-- C5: `MAX_TRACE_REC_EXITS = MAX_TRACE_FRAGMENTS + 1` (with
`MAX_TRACE_FRAGMENTS = 20`), so a trace of `N` fragments with
`N <= MAX_TRACE_FRAGMENTS`, starting from `free_exit_rec = 0` and recording
one exit per fragment, performs every write inside the bounds of `exits`
(the recording returns a result), leaves the exit of fragment `i` at index
`i` for every `i < N`, and ends with `free_exit_rec = N <= MAX_TRACE_REC_EXITS`. -/
theorem trace_exit_records_in_bounds (t : trace_in_prog) (es : List trace_exits)
    (hfree : t.free_exit_rec = 0) (hN : es.length ≤ MAX_TRACE_FRAGMENTS) :
    MAX_TRACE_REC_EXITS = MAX_TRACE_FRAGMENTS + 1
      ∧ MAX_TRACE_FRAGMENTS = 20
      ∧ es.length ≤ MAX_TRACE_REC_EXITS
      ∧ ∃ t1, record_trace_exits t es = some t1
          ∧ t1.free_exit_rec = (es.length : Int)
          ∧ ∀ (i : Nat) (hi : i < es.length),
              ∃ hb : i < MAX_TRACE_REC_EXITS, t1.exits ⟨i, hb⟩ = es.get ⟨i, hi⟩ := by
  have hrec : MAX_TRACE_REC_EXITS = MAX_TRACE_FRAGMENTS + 1 := rfl
  have hle : 0 + es.length ≤ MAX_TRACE_REC_EXITS := by omega
  obtain ⟨t1, h1, hf1, hat, _⟩ := record_trace_exits_from es t 0 (by simpa using hfree) hle
  refine ⟨hrec, rfl, by omega, t1, h1, by simpa using hf1, ?_⟩
  intro i hi
  have hb : i < MAX_TRACE_REC_EXITS := by omega
  refine ⟨hb, ?_⟩
  have := hat i hi (by omega)
  simpa using this

/-- Witness for C5: two fragments recorded from a fresh trace. -/
theorem trace_exit_records_in_bounds_witness :
    trace_start.free_exit_rec = 0
      ∧ [(⟨100, 200⟩ : trace_exits), ⟨300, 400⟩].length ≤ MAX_TRACE_FRAGMENTS
      ∧ ∃ t1, record_trace_exits trace_start [⟨100, 200⟩, ⟨300, 400⟩] = some t1
          ∧ t1.free_exit_rec = (([(⟨100, 200⟩ : trace_exits), ⟨300, 400⟩].length : Nat) : Int)
          ∧ ∀ (i : Nat) (hi : i < [(⟨100, 200⟩ : trace_exits), ⟨300, 400⟩].length),
              ∃ hb : i < MAX_TRACE_REC_EXITS,
                t1.exits ⟨i, hb⟩ = [(⟨100, 200⟩ : trace_exits), ⟨300, 400⟩].get ⟨i, hi⟩ :=
  ⟨rfl, by decide,
    (trace_exit_records_in_bounds trace_start [⟨100, 200⟩, ⟨300, 400⟩] rfl (by decide)).2.2.2⟩

/-- C7: in the ARM build, for every `addr != UINT_MAX`, `adjust_cc_entry`
returns `addr + 4` (mod 2^32) when bit 0 of `addr` is 0 and `addr + 2`
(mod 2^32) when bit 0 is 1, so bit 0 of the result equals bit 0 of `addr`;
`UINT_MAX` is returned unchanged; the result is again a 32-bit value; in the
AArch64 build the function is the identity. -/
theorem adjust_cc_entry_skips_prologue (addr : Nat) (h32 : addr < 2 ^ 32) :
    (addr ≠ UINT_MAX → addr &&& 1 = 0 → adjust_cc_entry true addr = (addr + 4) % 2 ^ 32)
      ∧ (addr ≠ UINT_MAX → addr &&& 1 = 1 → adjust_cc_entry true addr = (addr + 2) % 2 ^ 32)
      ∧ (addr ≠ UINT_MAX → adjust_cc_entry true addr &&& 1 = addr &&& 1)
      ∧ adjust_cc_entry true UINT_MAX = UINT_MAX
      ∧ adjust_cc_entry true addr < 2 ^ 32
      ∧ (∀ a : Nat, adjust_cc_entry false a = a) := by
  refine ⟨?_, ?_, ?_, ?_, ?_, ?_⟩
  · intro hne h0
    rw [Nat.and_one_is_mod] at h0
    exact adjust_cc_entry_arm_even addr hne h0
  · intro hne h1
    rw [Nat.and_one_is_mod] at h1
    exact adjust_cc_entry_arm_odd addr hne h1
  · intro hne
    rw [Nat.and_one_is_mod, Nat.and_one_is_mod]
    rcases Nat.mod_two_eq_zero_or_one addr with h | h
    · rw [adjust_cc_entry_arm_even addr hne h]; norm_num; omega
    · rw [adjust_cc_entry_arm_odd addr hne h]; norm_num
  · simp [adjust_cc_entry]
  · by_cases hne : addr = UINT_MAX
    · have hsame : adjust_cc_entry true addr = addr := by
        simp only [adjust_cc_entry, if_true, hne, ne_eq, not_true_eq_false, if_false]
      rw [hsame]
      exact h32
    · rcases Nat.mod_two_eq_zero_or_one addr with h | h
      · rw [adjust_cc_entry_arm_even addr hne h]; exact Nat.mod_lt _ (by norm_num)
      · rw [adjust_cc_entry_arm_odd addr hne h]; exact Nat.mod_lt _ (by norm_num)
  · intro a
    simp [adjust_cc_entry]

/-- Witness for C7: the ARM entry 0x8000 moves to 0x8004 and the Thumb entry
0x8001 moves to 0x8003. -/
theorem adjust_cc_entry_skips_prologue_witness :
    (32768 : Nat) < 2 ^ 32 ∧ (32769 : Nat) < 2 ^ 32
      ∧ adjust_cc_entry true 32768 = (32768 + 4) % 2 ^ 32
      ∧ adjust_cc_entry true 32769 = (32769 + 2) % 2 ^ 32 :=
  ⟨by norm_num, by norm_num,
    (adjust_cc_entry_skips_prologue 32768 (by norm_num)).1 (by decide) (by decide),
    (adjust_cc_entry_skips_prologue 32769 (by norm_num)).2.1 (by decide) (by decide)⟩

/-- C8: `QUEUE_COND_MASK`, `QUEUE_STUB_ONLY`, `QUEUE_IS_RAW_ADDR` and
`QUEUE_IS_THUMB` are pairwise bit-disjoint, and for every condition code
`c <= 15` and every three booleans the word
`info = c | (stub_only ? QUEUE_STUB_ONLY : 0) | (is_raw_addr ? QUEUE_IS_RAW_ADDR : 0)
| (is_thumb ? QUEUE_IS_THUMB : 0)` fits `uint32_t` and decodes back to the
same four values through `info & QUEUE_COND_MASK` and the three single-bit
tests. -/
theorem queue_info_roundtrip (c : Nat) (hc : c ≤ 15) (stub_only is_raw_addr is_thumb : Bool)
    (info : Nat)
    (hinfo : info = c ||| (if stub_only then QUEUE_STUB_ONLY else 0)
      ||| (if is_raw_addr then QUEUE_IS_RAW_ADDR else 0)
      ||| (if is_thumb then QUEUE_IS_THUMB else 0)) :
    (QUEUE_COND_MASK &&& QUEUE_STUB_ONLY = 0 ∧ QUEUE_COND_MASK &&& QUEUE_IS_RAW_ADDR = 0
        ∧ QUEUE_COND_MASK &&& QUEUE_IS_THUMB = 0 ∧ QUEUE_STUB_ONLY &&& QUEUE_IS_RAW_ADDR = 0
        ∧ QUEUE_STUB_ONLY &&& QUEUE_IS_THUMB = 0 ∧ QUEUE_IS_RAW_ADDR &&& QUEUE_IS_THUMB = 0)
      ∧ info < 2 ^ 32
      ∧ info &&& QUEUE_COND_MASK = c
      ∧ (info &&& QUEUE_STUB_ONLY ≠ 0 ↔ stub_only = true)
      ∧ (info &&& QUEUE_IS_RAW_ADDR ≠ 0 ↔ is_raw_addr = true)
      ∧ (info &&& QUEUE_IS_THUMB ≠ 0 ↔ is_thumb = true) := by
  subst hinfo
  have hc16 : c < 16 := by omega
  have key : ∀ c, c < 16 → ∀ s r t : Bool,
      (c ||| (if s then QUEUE_STUB_ONLY else 0) ||| (if r then QUEUE_IS_RAW_ADDR else 0)
          ||| (if t then QUEUE_IS_THUMB else 0)) < 2 ^ 32
      ∧ (c ||| (if s then QUEUE_STUB_ONLY else 0) ||| (if r then QUEUE_IS_RAW_ADDR else 0)
          ||| (if t then QUEUE_IS_THUMB else 0)) &&& QUEUE_COND_MASK = c
      ∧ ((c ||| (if s then QUEUE_STUB_ONLY else 0) ||| (if r then QUEUE_IS_RAW_ADDR else 0)
          ||| (if t then QUEUE_IS_THUMB else 0)) &&& QUEUE_STUB_ONLY ≠ 0 ↔ s = true)
      ∧ ((c ||| (if s then QUEUE_STUB_ONLY else 0) ||| (if r then QUEUE_IS_RAW_ADDR else 0)
          ||| (if t then QUEUE_IS_THUMB else 0)) &&& QUEUE_IS_RAW_ADDR ≠ 0 ↔ r = true)
      ∧ ((c ||| (if s then QUEUE_STUB_ONLY else 0) ||| (if r then QUEUE_IS_RAW_ADDR else 0)
          ||| (if t then QUEUE_IS_THUMB else 0)) &&& QUEUE_IS_THUMB ≠ 0 ↔ t = true) := by
    decide
  exact ⟨by decide, key c hc16 stub_only is_raw_addr is_thumb⟩

/-- Witness for C8: condition 11 with `stub_only` and `is_thumb` set packs to
0x5B and decodes back. -/
theorem queue_info_roundtrip_witness :
    (11 : Nat) ≤ 15 ∧ (91 : Nat) = 11 ||| (if true then QUEUE_STUB_ONLY else 0)
        ||| (if false then QUEUE_IS_RAW_ADDR else 0) ||| (if true then QUEUE_IS_THUMB else 0)
      ∧ 91 &&& QUEUE_COND_MASK = 11
      ∧ (91 &&& QUEUE_STUB_ONLY ≠ 0 ↔ true = true)
      ∧ (91 &&& QUEUE_IS_RAW_ADDR ≠ 0 ↔ false = true)
      ∧ (91 &&& QUEUE_IS_THUMB ≠ 0 ↔ true = true) :=
  ⟨by decide, by decide,
    (queue_info_roundtrip 11 (by decide) true false true 91 (by decide)).2.2⟩

/-- C9: `FALLTHROUGH_LINKED`, `BRANCH_LINKED` and `BOTH_LINKED` are the
non-zero single-bit values 1, 2 and 4, pairwise bit-disjoint and pairwise
distinct.  For every subset of the three flags, OR-ing the subset into a
`branch_cache_status` makes each `&` test true exactly when the flag was
already set or belongs to the subset; starting from a zero status the tests
recover exactly the subset. -/
theorem link_status_flags (status : Nat) (f b o : Bool) :
    (FALLTHROUGH_LINKED = 2 ^ 0 ∧ BRANCH_LINKED = 2 ^ 1 ∧ BOTH_LINKED = 2 ^ 2)
      ∧ (FALLTHROUGH_LINKED = 1 ∧ BRANCH_LINKED = 2 ∧ BOTH_LINKED = 4)
      ∧ (FALLTHROUGH_LINKED ≠ 0 ∧ BRANCH_LINKED ≠ 0 ∧ BOTH_LINKED ≠ 0)
      ∧ (FALLTHROUGH_LINKED &&& BRANCH_LINKED = 0 ∧ FALLTHROUGH_LINKED &&& BOTH_LINKED = 0
          ∧ BRANCH_LINKED &&& BOTH_LINKED = 0)
      ∧ (FALLTHROUGH_LINKED ≠ BRANCH_LINKED ∧ FALLTHROUGH_LINKED ≠ BOTH_LINKED
          ∧ BRANCH_LINKED ≠ BOTH_LINKED)
      ∧ (((status ||| (if f then FALLTHROUGH_LINKED else 0) ||| (if b then BRANCH_LINKED else 0)
              ||| (if o then BOTH_LINKED else 0)) &&& FALLTHROUGH_LINKED ≠ 0
            ↔ (status &&& FALLTHROUGH_LINKED ≠ 0 ∨ f = true))
          ∧ ((status ||| (if f then FALLTHROUGH_LINKED else 0) ||| (if b then BRANCH_LINKED else 0)
              ||| (if o then BOTH_LINKED else 0)) &&& BRANCH_LINKED ≠ 0
            ↔ (status &&& BRANCH_LINKED ≠ 0 ∨ b = true))
          ∧ ((status ||| (if f then FALLTHROUGH_LINKED else 0) ||| (if b then BRANCH_LINKED else 0)
              ||| (if o then BOTH_LINKED else 0)) &&& BOTH_LINKED ≠ 0
            ↔ (status &&& BOTH_LINKED ≠ 0 ∨ o = true)))
      ∧ (((0 ||| (if f then FALLTHROUGH_LINKED else 0) ||| (if b then BRANCH_LINKED else 0)
              ||| (if o then BOTH_LINKED else 0)) &&& FALLTHROUGH_LINKED ≠ 0 ↔ f = true)
          ∧ ((0 ||| (if f then FALLTHROUGH_LINKED else 0) ||| (if b then BRANCH_LINKED else 0)
              ||| (if o then BOTH_LINKED else 0)) &&& BRANCH_LINKED ≠ 0 ↔ b = true)
          ∧ ((0 ||| (if f then FALLTHROUGH_LINKED else 0) ||| (if b then BRANCH_LINKED else 0)
              ||| (if o then BOTH_LINKED else 0)) &&& BOTH_LINKED ≠ 0 ↔ o = true)) := by
  have hF : FALLTHROUGH_LINKED = 2 ^ 0 := by decide
  have hB : BRANCH_LINKED = 2 ^ 1 := by decide
  have hO : BOTH_LINKED = 2 ^ 2 := by decide
  refine ⟨⟨hF, hB, hO⟩, by decide, by decide, by decide, by decide, ?_, ?_⟩
  · rw [hF, hB, hO]
    simp only [or_and_two_pow_ne_zero]
    have e12 : (1 : Nat) &&& 2 = 0 := by decide
    have e14 : (1 : Nat) &&& 4 = 0 := by decide
    have e21 : (2 : Nat) &&& 1 = 0 := by decide
    have e24 : (2 : Nat) &&& 4 = 0 := by decide
    have e41 : (4 : Nat) &&& 1 = 0 := by decide
    have e42 : (4 : Nat) &&& 2 = 0 := by decide
    cases f <;> cases b <;> cases o <;> simp [e12, e14, e21, e24, e41, e42]
  · cases f <;> cases b <;> cases o <;> decide

/-- C10 (counterexample): the Thumb-tagged 32-bit address 0xFFFFFFFD is not the
miss sentinel, yet in the ARM build `adjust_cc_entry` maps it to `UINT_MAX`,
so "the result is `UINT_MAX` if and only if the argument is" fails for it. -/
theorem adjust_cc_entry_miss_collision :
    (4294967293 : Nat) < 2 ^ 32
      ∧ 4294967293 ≠ UINT_MAX
      ∧ adjust_cc_entry true 4294967293 = UINT_MAX
      ∧ ¬ (adjust_cc_entry true 4294967293 = UINT_MAX ↔ 4294967293 = UINT_MAX) := by
  have h1 : adjust_cc_entry true 4294967293 = UINT_MAX := by decide
  refine ⟨by norm_num, by decide, h1, ?_⟩
  intro h
  exact absurd (h.mp h1) (by decide)

/-- C10 (amended): in the ARM build, for every 32-bit address `addr`,
`adjust_cc_entry(addr) == UINT_MAX` if and only if `addr == UINT_MAX` or
`addr == 0xFFFFFFFD`; hence the miss sentinel is mapped to itself, and for
every address other than 0xFFFFFFFD the result is the sentinel exactly when
the argument is. -/
theorem adjust_cc_entry_miss_iff (addr : Nat) (h32 : addr < 2 ^ 32) :
    (adjust_cc_entry true addr = UINT_MAX ↔ (addr = UINT_MAX ∨ addr = 4294967293))
      ∧ adjust_cc_entry true UINT_MAX = UINT_MAX
      ∧ (addr ≠ 4294967293 → (adjust_cc_entry true addr = UINT_MAX ↔ addr = UINT_MAX)) := by
  have hU : UINT_MAX = 4294967295 := rfl
  have hself : adjust_cc_entry true UINT_MAX = UINT_MAX := by simp [adjust_cc_entry]
  have hp : (2 : Nat) ^ 32 = 4294967296 := by norm_num
  rw [hp] at h32
  have main : adjust_cc_entry true addr = UINT_MAX ↔ (addr = UINT_MAX ∨ addr = 4294967293) := by
    by_cases hne : addr = UINT_MAX
    · rw [hne]
      exact ⟨fun _ => Or.inl rfl, fun _ => hself⟩
    · rcases Nat.mod_two_eq_zero_or_one addr with h | h
      · rw [adjust_cc_entry_arm_even addr hne h, hp, hU]
        rw [hU] at hne
        omega
      · rw [adjust_cc_entry_arm_odd addr hne h, hp, hU]
        rw [hU] at hne
        omega
  refine ⟨main, hself, ?_⟩
  intro hne
  rw [main]
  exact ⟨fun h => h.resolve_right hne, Or.inl⟩

/-- Witness for C10 (amended): the ARM entry 0x8000 is not turned into the miss
sentinel. -/
theorem adjust_cc_entry_miss_iff_witness :
    (32768 : Nat) < 2 ^ 32 ∧ (32768 : Nat) ≠ 4294967293
      ∧ (adjust_cc_entry true 32768 = UINT_MAX ↔ 32768 = UINT_MAX) :=
  ⟨by norm_num, by decide,
    (adjust_cc_entry_miss_iff 32768 (by norm_num)).2.2 (by decide)⟩

/-! ## Claim C6 -/

end Mambo
